import Mathlib

/-!
# Verification of the `th-commit` protocol client

A shallow embedding, in Lean, of the `th-commit` command-line client
(`src/main.rs`): the JSON values its result decoder inspects, the legacy
pipe-delimited result grammar, the structured-result fallback, the
response-handling loop of `run_commit`, the single-attempt connection
helper `connect_to_server`, and the commands the client sends.
Machine integers are modelled as `Int`/`Nat` with explicit range checks
where the Rust code's integer types matter (`i32` parsing, `u64`
extraction).
-/

namespace ThCommit

/-- A JSON value, as inspected by `run_commit` through `serde_json::Value`.
Numbers are modelled as integers (`Int`); the decoder only ever extracts
integral values (`as_u64`), and no claim involves floating-point payloads. -/
inductive Json where
  | null
  | bool (b : Bool)
  | num (n : Int)
  | str (s : String)
  | arr (elems : List Json)
  | obj (fields : List (String × Json))

/-- `serde_json::Value::get(key)` on an object: look the key up (objects
parsed by serde have unique keys, so first-match lookup is exact); `None`
on non-objects. -/
def Json.get (j : Json) (key : String) : Option Json :=
  match j with
  | .obj fields => fields.lookup key
  | _ => none

/-- `Value::as_str`. -/
def Json.asStr : Json → Option String
  | .str s => some s
  | _ => none

/-- `Value::as_bool`. -/
def Json.asBool : Json → Option Bool
  | .bool b => some b
  | _ => none

/-- `Value::as_u64`: a number representable as an unsigned 64-bit
integer. -/
def Json.asU64 : Json → Option Nat
  | .num n => if 0 ≤ n ∧ n < 2 ^ 64 then some n.toNat else none
  | _ => none

/-- Split a character list at every occurrence of `c`; the pieces do not
contain `c`.  The empty list yields one empty piece, matching Rust's
`"".split('|')`. -/
def splitChar (c : Char) : List Char → List (List Char)
  | [] => [[]]
  | x :: xs =>
    match splitChar c xs with
    | [] => if x = c then [[], []] else [[x]]
    | y :: ys => if x = c then [] :: y :: ys else (x :: y) :: ys

/-- Rust `str::split("|")` for the one-character separator used by the
legacy grammar. -/
def splitPipe (s : String) : List String :=
  (splitChar '|' s.toList).map String.mk

/-- Split a character list at the first occurrence of `c`: the part
before it and the part after it; `none` when `c` does not occur. -/
def breakAtChar (c : Char) : List Char → Option (List Char × List Char)
  | [] => none
  | x :: xs =>
    if x = c then some ([], xs)
    else (breakAtChar c xs).map (fun p => (x :: p.1, p.2))

/-- Rust `str::split_once(":")`: split at the first occurrence of the
separator; `none` when the separator does not occur. -/
def splitOnce (s : String) (c : Char) : Option (String × String) :=
  (breakAtChar c s.toList).map (fun p => (String.mk p.1, String.mk p.2))

/-- Rust `"...".parse::<i32>()`: an optional ASCII sign followed by one or
more ASCII digits, with the value required to fit in a signed 32-bit
integer; anything else fails. -/
def parseI32 (s : String) : Option Int :=
  let digitsToVal (ds : List Char) : Nat :=
    ds.foldl (fun a c => a * 10 + (c.toNat - 48)) 0
  let core (ds : List Char) (sign : Int) : Option Int :=
    if ds = [] ∨ ¬ ds.all Char.isDigit then none
    else
      let v : Int := sign * (digitsToVal ds : Nat)
      if -(2 ^ 31) ≤ v ∧ v ≤ 2 ^ 31 - 1 then some v else none
  match s.toList with
  | '-' :: rest => core rest (-1)
  | '+' :: rest => core rest 1
  | l => core l 1

/-- The local variables accumulated by the pipe-delimited parse in
`run_commit` (`main.rs:140-170`): `success`, `message`, `hash`,
`commit_msg`, `files`, `ins`, `dels`.  The three counters are `i32` in
the source (Rust's default integer fallback), modelled as `Int`. -/
structure LegacyRec where
  success : Bool
  message : Option String
  hash : Option String
  commit_msg : Option String
  files : Int
  ins : Int
  dels : Int
deriving DecidableEq

/-- The initial values of the parse variables (`main.rs:140-146`). -/
def initLegacy : LegacyRec :=
  ⟨false, none, none, none, 0, 0, 0⟩

/-- The body of the `match key` in `run_commit` (`main.rs:151-168`),
applied to one `KEY:VALUE` pair already split by `split_once`. -/
def applyPair (r : LegacyRec) (kv : String × String) : LegacyRec :=
  match kv.1 with
  | "STATUS" => { r with success := kv.2 == "true" }
  | "MESSAGE" => { r with message := some kv.2 }
  | "HASH" => if kv.2 != "none" then { r with hash := some kv.2 } else r
  | "COMMIT_MSG" => if kv.2 != "none" then { r with commit_msg := some kv.2 } else r
  | "FILES" => { r with files := (parseI32 kv.2).getD 0 }
  | "INS" => { r with ins := (parseI32 kv.2).getD 0 }
  | "DELS" => { r with dels := (parseI32 kv.2).getD 0 }
  | _ => r

/-- One iteration of the `for field in status_msg.split("|")` loop
(`main.rs:149-170`): fields without a `:` are skipped. -/
def applyField (r : LegacyRec) (field : String) : LegacyRec :=
  match splitOnce field ':' with
  | some kv => applyPair r kv
  | none => r

/-- The whole legacy parse loop (`main.rs:149-170`): fold the field
handler over the `|`-separated pieces of `status_msg`. -/
def parseStatusMsg (statusMsg : String) : LegacyRec :=
  (splitPipe statusMsg).foldl applyField initLegacy

/-- The `KEY:VALUE` pairs a legacy string carries: the `|`-separated
pieces that contain a `:`, split at the first `:`.  Pieces without a `:`
carry no field. -/
def legacyFields (s : String) : List (String × String) :=
  (splitPipe s).filterMap (fun f => splitOnce f ':')

/-- The values extracted by the structured-format fallback branch of
`run_commit` (`main.rs:214-246`): `success`, `message`, `commit_hash`,
`commit_message`, and the three `u64` counters. -/
structure StructRec where
  success : Bool
  message : Option String
  commit_hash : Option String
  commit_message : Option String
  files : Nat
  ins : Nat
  dels : Nat
deriving DecidableEq

/-- The structured-format extraction (`main.rs:214-246`), field by field:
each is `data.get(key)` chained with the matching `as_*` accessor, with
the source's `unwrap_or` defaults. -/
def structuredRec (data : Json) : StructRec :=
  { success := ((data.get "success").bind Json.asBool).getD false
    message := (data.get "message").bind Json.asStr
    commit_hash := (data.get "commit_hash").bind Json.asStr
    commit_message := (data.get "commit_message").bind Json.asStr
    files := ((data.get "files_changed").bind Json.asU64).getD 0
    ins := ((data.get "insertions").bind Json.asU64).getD 0
    dels := ((data.get "deletions").bind Json.asU64).getD 0 }

/-- Which of the two wire sub-formats decoded a parsed payload, with the
extracted canonical fields. -/
inductive DecodedResult where
  | legacy (r : LegacyRec)
  | structured (r : StructRec)
deriving DecidableEq

/-- The format dispatch of `run_commit` (`main.rs:138` and `main.rs:211`):
when the parsed object carries a *string* field `status_msg`, that string
is parsed under the legacy grammar; otherwise the structured fields are
consulted. -/
def decodeData (data : Json) : DecodedResult :=
  match (data.get "status_msg").bind Json.asStr with
  | some statusMsg => .legacy (parseStatusMsg statusMsg)
  | none => .structured (structuredRec data)

/-- One terminal-output call made through the `ui` module.  The `ui`
module itself is presentation (colors, icons, boxes) and out of scope;
the constructors record which function was called with which text. -/
inductive UIAction where
  | printSection (title : String)
  | printStatus (message kind : String)
  | printItem (label value : String) (color : Option String)
  | printCommitMessage (message : String)
deriving DecidableEq

/-- The prints of the legacy-format branch (`main.rs:172-210`), as a
function of the parsed record. -/
def renderLegacy (r : LegacyRec) : List UIAction :=
  [UIAction.printSection "📋 Results"]
  ++ (if r.success then [UIAction.printStatus "Commit operation completed" "success"]
      else [UIAction.printStatus "Commit operation completed with issues" "warning"])
  ++ (match r.message with
      | some msg =>
        [UIAction.printItem "Message" msg (some (if r.success then "success" else "warning"))]
      | none => [])
  ++ (match r.hash with
      | some h => [UIAction.printItem "Commit hash" h (some "info")]
      | none => [])
  ++ (match r.commit_msg with
      | some cm => [UIAction.printStatus "Commit message" "message", UIAction.printCommitMessage cm]
      | none => [])
  ++ (if r.files > 0 ∨ r.ins > 0 ∨ r.dels > 0 then
        [UIAction.printSection "📊 Change Summary",
         UIAction.printItem "Files changed" (toString r.files) (some "highlight")]
        ++ (if r.ins > 0 then [UIAction.printItem "Insertions" ("+" ++ toString r.ins) (some "success")] else [])
        ++ (if r.dels > 0 then [UIAction.printItem "Deletions" ("-" ++ toString r.dels) (some "error")] else [])
      else [])

/-- The prints of the structured-format branch (`main.rs:216-257`). -/
def renderStructured (r : StructRec) : List UIAction :=
  [UIAction.printSection "📋 Results"]
  ++ (if r.success then [UIAction.printStatus "Commit operation completed successfully" "success"]
      else [UIAction.printStatus "Commit operation completed with issues" "warning"])
  ++ (match r.message with
      | some msg =>
        [UIAction.printItem "Message" msg (some (if r.success then "success" else "warning"))]
      | none => [])
  ++ (match r.commit_hash with
      | some h => [UIAction.printItem "Commit hash" h (some "info")]
      | none => [])
  ++ (match r.commit_message with
      | some cm => [UIAction.printStatus "Commit message" "message", UIAction.printCommitMessage cm]
      | none => [])
  ++ (if r.files > 0 ∨ r.ins > 0 ∨ r.dels > 0 then
        [UIAction.printSection "📊 Change Summary",
         UIAction.printItem "Files changed" (toString r.files) (some "highlight")]
        ++ (if r.ins > 0 then [UIAction.printItem "Insertions" ("+" ++ toString r.ins) (some "success")] else [])
        ++ (if r.dels > 0 then [UIAction.printItem "Deletions" ("-" ++ toString r.dels) (some "error")] else [])
      else [])

/-- The raw result payload of `ActorResult::Success`, abstracted by its
two tests in the source (`main.rs:135-136`): the payload can be missing
(`result == None`), be bytes that `serde_json::from_slice` rejects, or be
bytes that parse to a JSON value. -/
inductive ResultPayload where
  | noData
  | malformed
  | parsed (data : Json)

/-- An append-only lifecycle entry emitted by a running actor.  Modelled
from the spec (§3 `ChainEvent`): the source never constructs or consumes
one. -/
structure ChainEvent where
  eventType : String
  description : Option String
  data : List Nat

/-- The two arms of `theater::messages::ActorResult` as matched at
`main.rs:133-134` and `main.rs:266`: `Success(ChildResult)` and
`Error(ChildError)`.  Error details are modelled by their display
string. -/
inductive ActorResultMsg where
  | success (actorId : String) (result : ResultPayload)
  | error (actorId : String) (error : String)

/-- The inbound response union (spec §3).  `actorStarted`, `actorResult`
and `error` are matched explicitly by `run_commit`; `actorEvent` and
`requestedMessage` come from the spec's wire union and fall into the
source's catch-all arm (`main.rs:281`). -/
inductive ManagementResponse where
  | actorStarted (id : String)
  | actorResult (r : ActorResultMsg)
  | error (error : String)
  | actorEvent (actorId : String) (event : ChainEvent)
  | requestedMessage (payload : List Nat)

/-- An abstraction of Rust's `format!("{:?}", msg)` debug rendering used
by the catch-all arm; only the variant name matters to any claim. -/
def debugRepr : ManagementResponse → String
  | .actorStarted id => "ActorStarted(" ++ id ++ ")"
  | .actorResult _ => "ActorResult(..)"
  | .error e => "Error(" ++ e ++ ")"
  | .actorEvent id _ => "ActorEvent(" ++ id ++ ", ..)"
  | .requestedMessage _ => "RequestedMessage(..)"

/-- The handling of a present `ActorResult::Success` frame
(`main.rs:135-264`): given the `operation_success` flag in scope, return
the new flag and the prints.  When the payload is absent or unparsable
the flag is left as it was and a soft status line is printed; the
function is total — no payload raises. -/
def handleSuccessPayload (actorId : String) (flag : Bool) :
    ResultPayload → Bool × List UIAction
  | .parsed data =>
    match decodeData data with
    | .legacy r => (r.success, renderLegacy r)
    | .structured r => (r.success, renderStructured r)
  | .malformed =>
    (flag, [UIAction.printStatus ("Result from " ++ actorId ++ ": Unable to parse JSON") "error"])
  | .noData =>
    (flag, [UIAction.printStatus ("Result from " ++ actorId ++ ": No data returned") "warning"])

/-- The effect of handling one inbound frame in `run_commit`'s loop:
the `operation_success` flag after the arm, whether the arm ends the
loop (`break`), the prints, and the events delivered to an event
consumer.  `eventsPushed` is modelled from the spec (§4.2's event
queue): the source has no event queue, and every arm of its `match`
delivers nothing, so the component records what each arm pushes —
always nothing. -/
structure StepResult where
  opSuccess : Bool
  brk : Bool
  output : List UIAction
  eventsPushed : List ChainEvent

/-- One iteration of the `loop`/`match msg` in `run_commit`
(`main.rs:123-287`), given the current `operation_success` flag and the
received frame. -/
def step (flag : Bool) (msg : ManagementResponse) : StepResult :=
  match msg with
  | .actorStarted id =>
    ⟨flag, false,
      [UIAction.printStatus ("Commit actor started! (ID: " ++ id ++ ")") "success",
       UIAction.printStatus "Analyzing changes in repository" "files",
       UIAction.printStatus "Working: This may take a moment" "working"], []⟩
  | .actorResult (.success actorId result) =>
    let r := handleSuccessPayload actorId flag result
    ⟨r.1, true, r.2, []⟩
  | .actorResult (.error actorId err) =>
    ⟨false, true,
      [UIAction.printSection "📋 Results",
       UIAction.printStatus ("Error from actor " ++ actorId) "error",
       UIAction.printItem "Error details" err (some "error")], []⟩
  | .error err =>
    ⟨false, false,
      [UIAction.printSection "📋 Results",
       UIAction.printStatus "Error starting commit actor" "error",
       UIAction.printItem "Error details" err (some "error")], []⟩
  | other =>
    ⟨flag, false,
      [UIAction.printStatus ("Unexpected response: " ++ debugRepr other) "warning"], []⟩

/-- Run the receive loop over a given sequence of inbound frames:
`some b` when some frame's arm breaks the loop with final flag `b`,
`none` when the sequence is exhausted with the loop still waiting on
`receive()`. -/
def runLoop (flag : Bool) : List ManagementResponse → Option Bool
  | [] => none
  | msg :: rest =>
    if (step flag msg).brk then some (step flag msg).opSuccess
    else runLoop (step flag msg).opSuccess rest

/-- `run_commit`'s loop from its initial state (`operation_success =
false`, `main.rs:121`): the value `Ok(operation_success)` returned at
`main.rs:289` once the loop breaks. -/
def runCommit (msgs : List ManagementResponse) : Option Bool :=
  runLoop false msgs

/-- The outbound command union (spec §3).  Only `startActor` is ever
constructed by the source (`main.rs:109-114`); the other variants come
from the spec's wire union and are needed to state that they are never
sent.  Byte payloads are modelled as `List Nat`. -/
inductive ManagementCommand where
  | startActor (manifest : String) (initialState : Option (List Nat))
      (parent : Bool) (subscribe : Bool)
  | subscribeToActor (actorId : String)
  | requestActorMessage (actorId : String) (payload : List Nat)
  | stopActor (actorId : String)
deriving DecidableEq

/-- The complete sequence of `connection.send(..)` calls `run_commit`
makes, in program order (`main.rs:108-116` is the only send; the loop
body contains none): one `StartActor` with `parent: true` and
`subscribe: false`. -/
def runCommitSends (manifest : String) (initialStateBytes : List Nat) :
    List ManagementCommand :=
  [ManagementCommand.startActor manifest (some initialStateBytes) true false]

/-- `connect_to_server` (`main.rs:76-80`): create a `TheaterConnection`
and call `connect()` on it once, propagating its error with `?`.  The
peer is abstracted by `env`, giving the outcome `TheaterConnection.connect`
would have on the n-th attempt; the source performs exactly the first
attempt (`env 0`).  The second component records the backoff delays slept
between attempts — the source sleeps never, so it is empty. -/
def connect_to_server (env : Nat → Except String Unit) :
    Except String Unit × List Nat :=
  (env 0, [])

/-- Modelled from the spec: `connectWithRetry` (§4.6).  The repository
contains no retry loop; this definition follows the spec's words —
attempt `Transport.connect` up to `maxAttempts` times, back off between
failed attempts recording each delay, stop at the first success,
surface the last `ConnectionError` — so the source's `connect_to_server`
can be compared against it.  `retryFrom env delayFn a fuel` runs the
attempts `a, a+1, ...` with `fuel` attempts remaining. -/
def retryFrom (env : Nat → Except String Unit) (delayFn : Nat → Nat) :
    Nat → Nat → Except String Unit × List Nat
  | _, 0 => (Except.error "no connection attempts were made", [])
  | attempt, 1 => (env attempt, [])
  | attempt, fuel + 2 =>
    match env attempt with
    | Except.ok () => (Except.ok (), [])
    | Except.error _ =>
      let r := retryFrom env delayFn (attempt + 1) (fuel + 1)
      (r.1, delayFn attempt :: r.2)

/-- Modelled from the spec: `connectWithRetry(config)` with
`maxAttempts` and a backoff-delay schedule, starting at attempt `0`. -/
def connectWithRetry (maxAttempts : Nat) (delayFn : Nat → Nat)
    (env : Nat → Except String Unit) : Except String Unit × List Nat :=
  retryFrom env delayFn 0 maxAttempts

/-!
## Characterizing the legacy parse fold

The parse loop assigns each recognized key on every occurrence, so the
final value of each record component is decided by the *last* field of
the relevant kind.  `lastSat` picks the last field satisfying a
condition; the generic lemma `foldl_applyPair_proj` reads any component
of the fold off it.
-/

/-- The last element of a field list satisfying `c`. -/
def lastSat (c : String × String → Bool) :
    List (String × String) → Option (String × String)
  | [] => none
  | kv :: rest =>
    match lastSat c rest with
    | some x => some x
    | none => if c kv then some kv else none

/-- The value of the last `KEY:VALUE` field of `s` with the given key. -/
def lastFieldValue (key : String) (s : String) : Option String :=
  (lastSat (fun kv => kv.1 == key) (legacyFields s)).map Prod.snd

/-- The value of the last field of `s` with the given key whose value is
not the `"none"` sentinel. -/
def lastAssigned (key : String) (s : String) : Option String :=
  (lastSat (fun kv => kv.1 == key && kv.2 != "none") (legacyFields s)).map Prod.snd

theorem lastSat_eq_some {c : String × String → Bool}
    {ps : List (String × String)} {kv : String × String}
    (h : lastSat c ps = some kv) : c kv = true := by
  induction ps with
  | nil => simp [lastSat] at h
  | cons x rest ih =>
    simp only [lastSat] at h
    cases hr : lastSat c rest with
    | some y =>
      rw [hr] at h
      simp only [Option.some.injEq] at h
      subst h
      exact ih hr
    | none =>
      rw [hr] at h
      by_cases hx : c x
      · simp only [hx, if_true, Option.some.injEq] at h
        exact h ▸ hx
      · simp [hx] at h

theorem foldl_applyPair_proj {α : Type} (get : LegacyRec → α)
    (c : String × String → Bool) (f : String × String → α)
    (hg : ∀ r kv, get (applyPair r kv) = if c kv then f kv else get r) :
    ∀ (ps : List (String × String)) (r : LegacyRec),
      get (ps.foldl applyPair r) =
        match lastSat c ps with
        | some kv => f kv
        | none => get r := by
  intro ps
  induction ps with
  | nil => intro r; rfl
  | cons kv rest ih =>
    intro r
    rw [List.foldl_cons, ih]
    cases hr : lastSat c rest with
    | some x => simp [lastSat, hr]
    | none =>
      by_cases hc : c kv
      · simp [lastSat, hr, hc, hg]
      · simp [lastSat, hr, hc, hg]

theorem applyPair_proj_success (r : LegacyRec) (kv : String × String) :
    (applyPair r kv).success =
      if kv.1 == "STATUS" then kv.2 == "true" else r.success := by
  rcases kv with ⟨k, v⟩
  simp only [applyPair]
  split <;> simp_all [apply_ite LegacyRec.success]

theorem applyPair_proj_message (r : LegacyRec) (kv : String × String) :
    (applyPair r kv).message =
      if kv.1 == "MESSAGE" then some kv.2 else r.message := by
  rcases kv with ⟨k, v⟩
  simp only [applyPair]
  split <;> simp_all [apply_ite LegacyRec.message]

theorem applyPair_proj_hash (r : LegacyRec) (kv : String × String) :
    (applyPair r kv).hash =
      if kv.1 == "HASH" && kv.2 != "none" then some kv.2 else r.hash := by
  rcases kv with ⟨k, v⟩
  simp only [applyPair]
  split <;> simp_all [apply_ite LegacyRec.hash]

theorem applyPair_proj_commit_msg (r : LegacyRec) (kv : String × String) :
    (applyPair r kv).commit_msg =
      if kv.1 == "COMMIT_MSG" && kv.2 != "none" then some kv.2 else r.commit_msg := by
  rcases kv with ⟨k, v⟩
  simp only [applyPair]
  split <;> simp_all [apply_ite LegacyRec.commit_msg]

theorem applyPair_proj_files (r : LegacyRec) (kv : String × String) :
    (applyPair r kv).files =
      if kv.1 == "FILES" then (parseI32 kv.2).getD 0 else r.files := by
  rcases kv with ⟨k, v⟩
  simp only [applyPair]
  split <;> simp_all [apply_ite LegacyRec.files]

theorem applyPair_proj_ins (r : LegacyRec) (kv : String × String) :
    (applyPair r kv).ins =
      if kv.1 == "INS" then (parseI32 kv.2).getD 0 else r.ins := by
  rcases kv with ⟨k, v⟩
  simp only [applyPair]
  split <;> simp_all [apply_ite LegacyRec.ins]

theorem applyPair_proj_dels (r : LegacyRec) (kv : String × String) :
    (applyPair r kv).dels =
      if kv.1 == "DELS" then (parseI32 kv.2).getD 0 else r.dels := by
  rcases kv with ⟨k, v⟩
  simp only [applyPair]
  split <;> simp_all [apply_ite LegacyRec.dels]

theorem foldl_applyField_eq (l : List String) (r : LegacyRec) :
    l.foldl applyField r =
      (l.filterMap (fun f => splitOnce f ':')).foldl applyPair r := by
  induction l generalizing r with
  | nil => rfl
  | cons fld rest ih =>
    cases h : splitOnce fld ':' with
    | some kv => simp [List.foldl_cons, List.filterMap_cons, applyField, h, ih]
    | none => simp [List.foldl_cons, List.filterMap_cons, applyField, h, ih]

theorem parseStatusMsg_eq_foldl_fields (s : String) :
    parseStatusMsg s = (legacyFields s).foldl applyPair initLegacy := by
  rw [parseStatusMsg, legacyFields, foldl_applyField_eq]

theorem runLoop_append (l1 l2 : List ManagementResponse) (flag : Bool)
    (h : runLoop flag l1 = none) :
    runLoop flag (l1 ++ l2) =
      runLoop (l1.foldl (fun f m => (step f m).opSuccess) flag) l2 := by
  induction l1 generalizing flag with
  | nil => rfl
  | cons m rest ih =>
    simp only [runLoop, List.cons_append, List.foldl_cons] at h ⊢
    by_cases hb : (step flag m).brk
    · rw [if_pos hb] at h
      cases h
    · rw [if_neg hb] at h
      rw [if_neg hb]
      exact ih _ h

/-!
## The claims
-/

/-- C1 fails as stated: an `ActorEvent` frame arriving while the result
wait is pending is *not* delivered to any event consumer — the client
maintains no event queue (it starts the actor with `subscribe: false`
and its loop's catch-all arm only prints the frame), so the handling of
a concrete event frame pushes nothing onto an event queue. -/
theorem C1_event_not_queued :
    (step false (.actorEvent "actor-1" ⟨"chain-commit", none, []⟩)).eventsPushed =
      ([] : List ChainEvent) :=
  rfl

/-- C1 (amended): an `ActorEvent` frame arriving while the result wait
is pending is not delivered to an event consumer; the catch-all arm
prints it as an `Unexpected response` warning.  The pending wait is
neither resolved nor disturbed: the flag is unchanged, the arm does not
break the loop, and the remaining wait proceeds exactly as if the event
frame had not arrived. -/
theorem C1_event_warned_wait_undisturbed (flag : Bool) (actorId : String)
    (ev : ChainEvent) :
    step flag (.actorEvent actorId ev) =
      ⟨flag, false,
        [UIAction.printStatus
          ("Unexpected response: " ++ debugRepr (.actorEvent actorId ev)) "warning"],
        []⟩ ∧
    ∀ rest, runLoop flag (.actorEvent actorId ev :: rest) = runLoop flag rest :=
  ⟨rfl, fun _ => rfl⟩

/-- C2 fails as stated: against a peer that refuses the first two
connection attempts and accepts the third, the source's
`connect_to_server` surfaces the first refusal — there is no second or
third attempt and no backoff delay — whereas the spec's
`connectWithRetry` (with three attempts allowed) would succeed after
exactly two recorded delays. -/
theorem C2_no_retry_counterexample :
    (connect_to_server
        (fun i => if i < 2 then Except.error "connection refused" else Except.ok ())).1 =
      Except.error "connection refused" ∧
    (connect_to_server
        (fun i => if i < 2 then Except.error "connection refused" else Except.ok ())).2 =
      ([] : List Nat) ∧
    (connectWithRetry 3 (fun _ => 100)
        (fun i => if i < 2 then Except.error "connection refused" else Except.ok ())).1 =
      Except.ok () ∧
    (connectWithRetry 3 (fun _ => 100)
        (fun i => if i < 2 then Except.error "connection refused" else Except.ok ())).2 =
      [100, 100] :=
  ⟨rfl, rfl, rfl, rfl⟩

/-- C2 (amended): `connect_to_server` makes exactly one connection
attempt, surfacing that attempt's `ConnectionError` immediately with no
backoff delays — it behaves as the spec's `connectWithRetry` does when
`maxAttempts = 1`, for every peer and every backoff schedule. -/
theorem C2_connect_is_single_attempt (env : Nat → Except String Unit)
    (delayFn : Nat → Nat) :
    connect_to_server env = (env 0, []) ∧
    connect_to_server env = connectWithRetry 1 delayFn env :=
  ⟨rfl, rfl⟩

/-- C3: when the structured parse of a result payload yields an object
carrying a *string* field `status_msg`, that string is parsed under the
legacy pipe-delimited grammar and its content alone determines the
canonical result — the remaining structured fields are overridden; the
structured fields are consulted exactly when no string `status_msg` is
present. -/
theorem C3_status_msg_overrides (data : Json) (s : String) :
    ((data.get "status_msg").bind Json.asStr = some s →
      decodeData data = .legacy (parseStatusMsg s)) ∧
    ((data.get "status_msg").bind Json.asStr = none →
      decodeData data = .structured (structuredRec data)) := by
  constructor <;> intro h <;> simp [decodeData, h]

/-- C3 witness: a payload carrying both `status_msg` and structured
fields decodes from `status_msg` alone; one without `status_msg` decodes
from the structured fields. -/
theorem C3_status_msg_overrides_witness :
    decodeData (Json.obj
        [("status_msg", Json.str "STATUS:false|MESSAGE:nothing to commit"),
         ("success", Json.bool true),
         ("commit_hash", Json.str "deadbeef")]) =
      .legacy (parseStatusMsg "STATUS:false|MESSAGE:nothing to commit") ∧
    decodeData (Json.obj [("success", Json.bool true)]) =
      .structured (structuredRec (Json.obj [("success", Json.bool true)])) :=
  ⟨(C3_status_msg_overrides
      (Json.obj
        [("status_msg", Json.str "STATUS:false|MESSAGE:nothing to commit"),
         ("success", Json.bool true),
         ("commit_hash", Json.str "deadbeef")])
      "STATUS:false|MESSAGE:nothing to commit").1 rfl,
   (C3_status_msg_overrides (Json.obj [("success", Json.bool true)]) "").2 rfl⟩

/-- C4 fails as stated: the parse loop assigns `success` on *every*
`STATUS` field, so the last one wins — `"STATUS:true|STATUS:false"`
carries a `STATUS` field whose value is exactly `"true"`, yet decodes
with `success = false`. -/
theorem C4_last_status_wins_counterexample :
    ("STATUS", "true") ∈ legacyFields "STATUS:true|STATUS:false" ∧
    (parseStatusMsg "STATUS:true|STATUS:false").success = false := by
  constructor <;> decide

/-- C4 (amended): the decoded `success` field is `true` iff the *last*
`STATUS` field of the string has value exactly `"true"`; any other last
`STATUS` value, or an absent `STATUS` field, yields `success = false`. -/
theorem C4_success_iff_last_status_true (s : String) :
    (parseStatusMsg s).success = true ↔ lastFieldValue "STATUS" s = some "true" := by
  rw [parseStatusMsg_eq_foldl_fields,
    foldl_applyPair_proj LegacyRec.success (fun kv => kv.1 == "STATUS")
      (fun kv => kv.2 == "true") applyPair_proj_success,
    lastFieldValue]
  cases lastSat (fun kv => kv.1 == "STATUS") (legacyFields s) with
  | none => simp [initLegacy]
  | some kv => simp

/-- C5: result decoding is total by construction (`handleSuccessPayload`
is a total function of the payload, mirroring the source's non-panicking
`if let` chain) and degrades rather than aborts: an absent payload
yields a non-success outcome with a "No data returned" message, bytes
that fail the structured parse yield a non-success outcome with a soft
"Unable to parse JSON" status, and *every* payload still completes the
operation normally (the result arm always breaks the loop with a value,
never by raising). -/
theorem C5_decoder_total_degrades (actorId : String) :
    handleSuccessPayload actorId false .noData =
      (false,
       [UIAction.printStatus ("Result from " ++ actorId ++ ": No data returned")
         "warning"]) ∧
    handleSuccessPayload actorId false .malformed =
      (false,
       [UIAction.printStatus ("Result from " ++ actorId ++ ": Unable to parse JSON")
         "error"]) ∧
    ∀ p : ResultPayload,
      (step false (.actorResult (.success actorId p))).brk = true :=
  ⟨rfl, rfl, fun _ => rfl⟩

/-- C6 fails as stated: a `HASH:none` field never *assigns* the hash,
but it also never clears one — `"HASH:abc|HASH:none"` contains the field
`HASH:none`, yet the decoded hash is `some "abc"`, not absent. -/
theorem C6_none_sentinel_counterexample :
    ("HASH", "none") ∈ legacyFields "HASH:abc|HASH:none" ∧
    (parseStatusMsg "HASH:abc|HASH:none").hash = some "abc" := by
  constructor <;> decide

/-- C6 (amended): a `HASH` or `COMMIT_MSG` field with value `"none"`
assigns nothing, so the decoded field is the value of the last such
field whose value is not `"none"` — absent when every occurrence (or no
occurrence) carries the sentinel — and in particular the literal string
`"none"` is never decoded into either field. -/
theorem C6_none_sentinel_last_assigned (s : String) :
    (parseStatusMsg s).hash = lastAssigned "HASH" s ∧
    (parseStatusMsg s).commit_msg = lastAssigned "COMMIT_MSG" s ∧
    (parseStatusMsg s).hash ≠ some "none" ∧
    (parseStatusMsg s).commit_msg ≠ some "none" := by
  have hnone : ∀ key, lastAssigned key s ≠ some "none" := by
    intro key hcontra
    rw [lastAssigned] at hcontra
    cases hLS : lastSat (fun kv => kv.1 == key && kv.2 != "none") (legacyFields s) with
    | none => rw [hLS] at hcontra; cases hcontra
    | some kv =>
      have hc := lastSat_eq_some hLS
      rw [hLS] at hcontra
      simp only [Option.map_some', Option.some.injEq] at hcontra
      simp [hcontra] at hc
  have hh : (parseStatusMsg s).hash = lastAssigned "HASH" s := by
    rw [parseStatusMsg_eq_foldl_fields,
      foldl_applyPair_proj LegacyRec.hash
        (fun kv => kv.1 == "HASH" && kv.2 != "none")
        (fun kv => some kv.2) applyPair_proj_hash,
      lastAssigned]
    cases lastSat (fun kv => kv.1 == "HASH" && kv.2 != "none") (legacyFields s) <;> rfl
  have hcm : (parseStatusMsg s).commit_msg = lastAssigned "COMMIT_MSG" s := by
    rw [parseStatusMsg_eq_foldl_fields,
      foldl_applyPair_proj LegacyRec.commit_msg
        (fun kv => kv.1 == "COMMIT_MSG" && kv.2 != "none")
        (fun kv => some kv.2) applyPair_proj_commit_msg,
      lastAssigned]
    cases lastSat (fun kv => kv.1 == "COMMIT_MSG" && kv.2 != "none") (legacyFields s) <;> rfl
  exact ⟨hh, hcm, hh ▸ hnone "HASH", hcm ▸ hnone "COMMIT_MSG"⟩

/-- C7 fails as stated: the counters are parsed with Rust's default
`i32` inference, not as unsigned integers — `"FILES:-3"` is not a valid
unsigned integer, so the claim demands `0`, but the code decodes the
signed value `-3`. -/
theorem C7_signed_parse_counterexample :
    (parseStatusMsg "FILES:-3").files = -3 ∧
    (parseStatusMsg "FILES:-3").files < 0 := by
  constructor <;> decide

/-- C7 (amended): each of `FILES`, `INS` and `DELS` decodes to the
signed 32-bit parse of the value of its *last* occurrence, defaulting to
`0` when that value does not parse as an `i32` or the field is absent;
no value of these fields ever makes decoding fail.  (Negative values
parse and are kept, which is where the claim's "unsigned" fails.) -/
theorem C7_counters_signed_parse (s : String) :
    (parseStatusMsg s).files =
      ((lastFieldValue "FILES" s).map (fun v => (parseI32 v).getD 0)).getD 0 ∧
    (parseStatusMsg s).ins =
      ((lastFieldValue "INS" s).map (fun v => (parseI32 v).getD 0)).getD 0 ∧
    (parseStatusMsg s).dels =
      ((lastFieldValue "DELS" s).map (fun v => (parseI32 v).getD 0)).getD 0 := by
  refine ⟨?_, ?_, ?_⟩
  · rw [parseStatusMsg_eq_foldl_fields,
      foldl_applyPair_proj LegacyRec.files (fun kv => kv.1 == "FILES")
        (fun kv => (parseI32 kv.2).getD 0) applyPair_proj_files,
      lastFieldValue]
    cases lastSat (fun kv => kv.1 == "FILES") (legacyFields s) <;> rfl
  · rw [parseStatusMsg_eq_foldl_fields,
      foldl_applyPair_proj LegacyRec.ins (fun kv => kv.1 == "INS")
        (fun kv => (parseI32 kv.2).getD 0) applyPair_proj_ins,
      lastFieldValue]
    cases lastSat (fun kv => kv.1 == "INS") (legacyFields s) <;> rfl
  · rw [parseStatusMsg_eq_foldl_fields,
      foldl_applyPair_proj LegacyRec.dels (fun kv => kv.1 == "DELS")
        (fun kv => (parseI32 kv.2).getD 0) applyPair_proj_dels,
      lastFieldValue]
    cases lastSat (fun kv => kv.1 == "DELS") (legacyFields s) <;> rfl

/-- C8 fails as stated: the `Error` arm of the loop records failure but
does not break, so the session does not end and later frames are *not*
ignored — after an `Error` received while the actor is starting, a
subsequent successful `ActorResult` frame is processed normally and the
whole run reports success. -/
theorem C8_error_not_terminal_counterexample :
    runCommit
      [.error "failed to start actor",
       .actorResult (.success "actor-1"
         (.parsed (Json.obj [("status_msg", Json.str "STATUS:true")])))] =
      some true := by
  decide

/-- C8 (amended): when an `Error` response is received while the start
is pending, the client records a non-success outcome and *continues*
the receive loop — the session is not terminated, and every subsequent
frame is processed exactly as it would be from a fresh failure state
(in particular a later `ActorResult` still decides the final outcome). -/
theorem C8_error_records_failure_continues (flag : Bool) (e : String) :
    (step flag (.error e)).opSuccess = false ∧
    (step flag (.error e)).brk = false ∧
    ∀ rest, runLoop flag (.error e :: rest) = runLoop false rest :=
  ⟨rfl, rfl, fun _ => rfl⟩

/-- C9: an actor-reported failure delivered as a well-formed
`ActorResult::Error` frame is a successful protocol exchange — whenever
it arrives while the wait is still pending, the operation completes
with the *value* `false` (a non-success outcome), not with a
transport-level error: `run_commit` returns `Ok(false)`. -/
theorem C9_app_error_is_value (pre : List ManagementResponse)
    (actorId err : String) (h : runCommit pre = none) :
    runCommit (pre ++ [.actorResult (.error actorId err)]) = some false := by
  rw [runCommit] at h ⊢
  rw [runLoop_append _ _ _ h]
  rfl

/-- C9 witness: after an `ActorStarted` acknowledgement, a well-formed
`ActorResult::Error` frame completes the run with the value `false`. -/
theorem C9_app_error_is_value_witness :
    runCommit ([.actorStarted "actor-1"] ++
      [.actorResult (.error "actor-1" "commit failed: repository dirty")]) =
      some false :=
  C9_app_error_is_value [.actorStarted "actor-1"] "actor-1"
    "commit failed: repository dirty" rfl

/-- C10: the client sends exactly one command over the connection — a
`StartActor` whose `subscribe` flag is `false` (and `parent` flag
`true`) — and never sends `SubscribeToActor`, `RequestActorMessage` or
`StopActor`, so no event subscription is ever requested. -/
theorem C10_sends_exactly_one_start (manifest : String) (stBytes : List Nat) :
    runCommitSends manifest stBytes =
      [ManagementCommand.startActor manifest (some stBytes) true false] ∧
    (∀ actorId, ManagementCommand.subscribeToActor actorId ∉
      runCommitSends manifest stBytes) ∧
    (∀ actorId payload, ManagementCommand.requestActorMessage actorId payload ∉
      runCommitSends manifest stBytes) ∧
    (∀ actorId, ManagementCommand.stopActor actorId ∉
      runCommitSends manifest stBytes) := by
  refine ⟨rfl, ?_, ?_, ?_⟩ <;> intros <;> simp [runCommitSends]

end ThCommit
